import Mathlib

/-!
Verification of the backup-rotation engine in `cmd/rotator/main.go`.

The development shallowly embeds the rotator: timestamps parsed from
filenames become a `DateTime` record, the bucket-key derivations of
`Rotator.Rotate` (lines 140-170) become string-valued key functions over a
Gregorian-calendar model, and the filesystem-mutating stages (`clear`,
`link`, `remove`) become explicit state passing over a `World` record.
Go slice panics and `error` returns are modelled with `Option`/flags.
-/

/-- A wall-clock timestamp as parsed by `time.Parse("2006-01-02T15-04-05", ...)`:
plain Gregorian calendar fields, no time zone (the layout carries none). -/
structure DateTime where
  year : Nat
  month : Nat
  day : Nat
  hour : Nat
  minute : Nat
  second : Nat
deriving DecidableEq, Repr

/-- Gregorian leap-year rule, as in Go `time.isLeap`. -/
def isLeap (y : Nat) : Bool :=
  y % 4 = 0 && (y % 100 ≠ 0 || y % 400 = 0)

/-- Days in a month of the proleptic Gregorian calendar. -/
def daysInMonth (y m : Nat) : Nat :=
  if m = 2 then (if isLeap y then 29 else 28)
  else if m = 4 ∨ m = 6 ∨ m = 9 ∨ m = 11 then 30
  else 31

/-- Day-of-year ordinal (1-based): days in the months before `t.month`, plus
the day of the month. -/
def dayOfYear (t : DateTime) : Nat :=
  ((List.range (t.month - 1)).map (fun i => daysInMonth t.year (i + 1))).sum + t.day

/-- Rata-die day number: day 1 is 0001-01-01 of the proleptic Gregorian
calendar (a Monday). -/
def rataDie (t : DateTime) : Nat :=
  let n := t.year - 1
  365 * n + n / 4 + n / 400 - n / 100 + dayOfYear t

/-- ISO-8601 weekday: Monday = 1 .. Sunday = 7. -/
def isoWeekday (t : DateTime) : Nat :=
  (rataDie t + 6) % 7 + 1

/-- Number of ISO-8601 weeks (52 or 53) in calendar year `y`. -/
def isoWeeksInYear (y : Nat) : Nat :=
  let p : Nat → Nat := fun n => (n + n / 4 + n / 400 - n / 100) % 7
  if p y = 4 ∨ p (y - 1) = 3 then 53 else 52

/-- The ISO-8601 week-year and week number of a date, the pair returned by Go
`time.Time.ISOWeek`: the week containing the year's first Thursday is week 1,
and days before week 1 (resp. after the last week) belong to the neighbouring
week-year. -/
def isoWeek (t : DateTime) : Nat × Nat :=
  let w := (dayOfYear t + 10 - isoWeekday t) / 7
  if w = 0 then (t.year - 1, isoWeeksInYear (t.year - 1))
  else if isoWeeksInYear t.year < w then (t.year + 1, 1)
  else (t.year, w)

/-- Zero-pad a numeral to two digits, as Go `%02d` / layout `01` do. -/
def pad2 (n : Nat) : String :=
  if n < 10 then "0" ++ toString n else toString n

/-- Zero-pad a year to four digits, as Go layout `2006` does for years below
10000 (the filename pattern only yields four-digit years). -/
def pad4 (n : Nat) : String :=
  if n < 10 then "000" ++ toString n
  else if n < 100 then "00" ++ toString n
  else if n < 1000 then "0" ++ toString n
  else toString n

/-- Day bucket key, `backup.Time.Format("2006-01-02")` (main.go line 141). -/
def dateKey (t : DateTime) : String :=
  pad4 t.year ++ "-" ++ pad2 t.month ++ "-" ++ pad2 t.day

/-- Week bucket key, `fmt.Sprintf("%d-W%02d", backup.Time.Year(), weekNumber)`
where `weekNumber` is the second component of `ISOWeek` (main.go lines
142-143): the calendar year is combined with the ISO week number. -/
def weekKey (t : DateTime) : String :=
  toString t.year ++ "-W" ++ pad2 (isoWeek t).2

/-- Month bucket key, `backup.Time.Format("2006-01")` (main.go line 144). -/
def monthKey (t : DateTime) : String :=
  pad4 t.year ++ "-" ++ pad2 t.month

/-- Year bucket key, `backup.Time.Format("2006")` (main.go line 145). -/
def yearKey (t : DateTime) : String :=
  pad4 t.year

/-- Linearisation of a timestamp to seconds, for comparing instants the way
Go `Time.After` compares parsed wall-clock times. -/
def toSeconds (t : DateTime) : Nat :=
  ((rataDie t * 24 + t.hour) * 60 + t.minute) * 60 + t.second

/-- A backup file, `BackupFile` in main.go: filename, parsed timestamp, and
the tier tags accumulated during classification. -/
structure BackupFile where
  name : String
  time : DateTime
  tags : List String
deriving DecidableEq, Repr

/-- The rotation configuration carried by the `Rotator` struct: dry-run flag,
unconditional head count `Keep`, and the four generation quotas (Go `int`,
hence `Int` here). -/
structure Rotator where
  dry : Bool
  keep : Int
  keepDays : Int
  keepWeeks : Int
  keepMonths : Int
  keepYears : Int
deriving DecidableEq, Repr

/-- Lookup of a key in one of the Go bucket maps (`_, exists := m[k]`),
modelled on an association list. -/
def containsKey (m : List (String × BackupFile)) (k : String) : Bool :=
  m.any (fun p => p.1 == k)

/-- Result of one tier branch of the generational loop. -/
structure TierRes where
  file : BackupFile
  buckets : List (String × BackupFile)
  sel : List BackupFile
deriving DecidableEq, Repr

/-- One tier branch of the generational loop (main.go lines 147-151 and its
three siblings): if the bucket key is absent and the map is below quota, tag
the file, store it in the map and append it to `SelectedFiles`. -/
def tierStep (quota : Int) (k tag : String) (b : BackupFile)
    (m : List (String × BackupFile)) (sel : List BackupFile) : TierRes :=
  if containsKey m k = false ∧ (m.length : Int) < quota then
    let b := { b with tags := b.tags ++ [tag] }
    ⟨b, (k, b) :: m, sel ++ [b]⟩
  else ⟨b, m, sel⟩

/-- State of the generational pass: the four bucket maps and the growing
`SelectedFiles` list. -/
structure GenState where
  daily : List (String × BackupFile)
  weekly : List (String × BackupFile)
  monthly : List (String × BackupFile)
  yearly : List (String × BackupFile)
  selected : List BackupFile
deriving DecidableEq, Repr

/-- The body of the loop `for _, backup := range r.FoundFiles[r.Keep:]`
(main.go lines 140-170): the four tier branches run in order, the range
variable `backup` accumulating tags across them. -/
def genStep (r : Rotator) (s : GenState) (b : BackupFile) : GenState :=
  let t1 := tierStep r.keepDays (dateKey b.time) "daily" b s.daily s.selected
  let t2 := tierStep r.keepWeeks (weekKey t1.file.time) "weekly" t1.file s.weekly t1.sel
  let t3 := tierStep r.keepMonths (monthKey t2.file.time) "monthly" t2.file s.monthly t2.sel
  let t4 := tierStep r.keepYears (yearKey t3.file.time) "yearly" t3.file s.yearly t3.sel
  { daily := t1.buckets, weekly := t2.buckets, monthly := t3.buckets,
    yearly := t4.buckets, selected := t4.sel }

/-- The selection part of `Rotator.Rotate` (main.go lines 128-170).
`r.SelectedFiles = r.FoundFiles[:r.Keep]` shares the backing array with
`FoundFiles`, so the `keep` tags appended at lines 130-132 are visible in
both; the head slice itself is taken without clamping, so Go panics with
`slice bounds out of range` when `Keep` is negative or exceeds the number of
found files — modelled as `none`. -/
def rotateSelect (r : Rotator) (found : List BackupFile) : Option (List BackupFile) :=
  if r.keep < 0 ∨ (found.length : Int) < r.keep then none
  else
    let k := r.keep.toNat
    let keepPart := (found.take k).map (fun b => { b with tags := b.tags ++ ["keep"] })
    let s0 : GenState := ⟨[], [], [], [], keepPart⟩
    some (((found.drop k).foldl (genStep r) s0).selected)

/-- The filesystem state the rotator touches, plus fault injection: which
destination entries cannot be removed, which symlink creations fail, which
source deletions fail, and whether the destination can be listed at all. -/
structure World where
  dest : List String
  destReadable : Bool
  destRemoveFail : List String
  linkFail : List String
  src : List String
  srcRemoveFail : List String
deriving DecidableEq, Repr

/-- The removal loop of `Rotator.clear` (main.go lines 44-49): remove each
listed destination entry in order, returning the remaining entries and an
error flag at the first failed removal. -/
def clearLoop (fail : List String) : List String → List String × Bool
  | [] => ([], false)
  | e :: es => if e ∈ fail then (e :: es, true) else clearLoop fail es

/-- `Rotator.clear` (main.go lines 38-52): list the destination directory
(fatal error flag if unreadable), then remove every entry, stopping at the
first failure. -/
def clearDest (w : World) : World × Bool :=
  if w.destReadable = false then (w, true)
  else
    let res := clearLoop w.destRemoveFail w.dest
    ({ w with dest := res.1 }, res.2)

/-- The inner loop of `Rotator.link` (main.go lines 90-99): for each tag of
one selected file, build `tag ++ "-" ++ name`, skip it if an entry of that
name already exists (`Lstat`), otherwise create the symlink, aborting with an
error on a failed creation.  Returns the destination contents, the links
created, and the error flag. -/
def linkTags (fail : List String) (nm : String) :
    List String → List String → List String × List String × Bool
  | [], dest => (dest, [], false)
  | tag :: rest, dest =>
    let destPath := tag ++ "-" ++ nm
    if destPath ∈ dest then linkTags fail nm rest dest
    else if destPath ∈ fail then (dest, [], true)
    else
      let res := linkTags fail nm rest (destPath :: dest)
      (res.1, destPath :: res.2.1, res.2.2)

/-- `Rotator.link` (main.go lines 88-103): run `linkTags` over every selected
file, propagating the first symlink error. -/
def linkFiles (fail : List String) :
    List BackupFile → List String → List String × List String × Bool
  | [], dest => (dest, [], false)
  | f :: rest, dest =>
    let res := linkTags fail f.name f.tags dest
    if res.2.2 then res
    else
      let res2 := linkFiles fail rest res.1
      (res2.1, res.2.1 ++ res2.2.1, res2.2.2)

/-- `Rotator.remove` (main.go lines 105-122): walk the found files; every
file whose name is not in the selection map is deleted from the source
directory — unless dry-run is on, in which case the deletion is only
logged — and the loop returns with an error at the first failed deletion.
Returns the source contents, the names on which a deletion was attempted,
and the error flag. -/
def removeLoop (dry : Bool) (selNames : List String) (fail : List String) :
    List BackupFile → List String → List String → List String × List String × Bool
  | [], src, att => (src, att, false)
  | b :: rest, src, att =>
    if b.name ∈ selNames then removeLoop dry selNames fail rest src att
    else if dry then removeLoop dry selNames fail rest src att
    else if b.name ∈ fail then (src, att ++ [b.name], true)
    else removeLoop dry selNames fail rest (src.erase b.name) (att ++ [b.name])

/-- Everything observable about one `Rotate` run. -/
structure RotateResult where
  world : World
  selected : List BackupFile
  created : List String
  removedAttempts : List String
  clearErr : Bool
  linkErr : Bool
  removeErr : Bool
deriving DecidableEq, Repr

/-- `Rotator.Rotate` (main.go lines 125-181): clear the destination — the
returned error is discarded at line 126 — then select (panic modelled as
`none`), then link (error only printed), then remove (error only printed). -/
def Rotate (r : Rotator) (found : List BackupFile) (w : World) : Option RotateResult :=
  let c := clearDest w
  match rotateSelect r found with
  | none => none
  | some sel =>
    let l := linkFiles w.linkFail sel c.1.dest
    let w2 := { c.1 with dest := l.1 }
    let rem := removeLoop r.dry (sel.map (fun b => b.name)) w2.srcRemoveFail found w2.src []
    some { world := { w2 with src := rem.1 }, selected := sel, created := l.2.1,
           removedAttempts := rem.2.1, clearErr := c.2, linkErr := l.2.2,
           removeErr := rem.2.2 }

/-- Outcome of the CLI action (main.go lines 229-270) combined with the exit
handling in `main` (lines 273-276). -/
inductive RunOutcome where
  | readError : RunOutcome
  | emptyNoRotate : RunOutcome
  | panicked : RunOutcome
  | completed : RotateResult → RunOutcome
deriving DecidableEq, Repr

/-- The action body after reading (main.go lines 255-269): a read error is
returned (non-nil); with zero files the action executes `return err` — but
`err` is necessarily `nil` on that path, so the run finishes without calling
`Rotate`; otherwise `Rotate` runs. -/
def runMain (r : Rotator) (readResult : Option (List BackupFile)) (w : World) : RunOutcome :=
  match readResult with
  | none => .readError
  | some files =>
    if files.length = 0 then .emptyNoRotate
    else
      match Rotate r files w with
      | none => .panicked
      | some res => .completed res

/-- Process exit status (main.go lines 273-276): `os.Exit(1)` only when
`app.Run` returns a non-nil error; a Go panic also terminates non-zero.  On
the zero-files path the action returns a nil error, so the process exits 0. -/
def exitsNonZero : RunOutcome → Bool
  | .readError => true
  | .emptyNoRotate => false
  | .panicked => true
  | .completed _ => false

/-- Concrete timestamps and files used to evaluate the model. -/
def tsA : DateTime := ⟨2024, 6, 10, 12, 0, 0⟩

/-- A second, older timestamp on the previous day. -/
def tsB : DateTime := ⟨2024, 6, 9, 11, 30, 0⟩

/-- Newest concrete backup file, with the empty tag list `Read` produces. -/
def fileA : BackupFile := ⟨"2024-06-10T12-00-00.sql.gz", tsA, []⟩

/-- Older concrete backup file. -/
def fileB : BackupFile := ⟨"2024-06-09T11-30-00.sql.gz", tsB, []⟩

/-- A policy whose head count exceeds the single available file. -/
def rKeepTwo : Rotator := ⟨false, 2, 7, 5, 6, 2⟩

/-- C1.  With `keep = 2` and a single found file, `Rotate` does not clamp:
`r.FoundFiles[:r.Keep]` slices past the end of a one-element slice (of
capacity one), so Go panics with `slice bounds out of range` instead of
degrading to "all files" — the selection step crashes, modelled as `none`. -/
theorem keep_overflow_panics : rotateSelect rKeepTwo [fileA] = none := by decide

/-- A policy under which a single file qualifies for two tiers at once. -/
def rDupTiers : Rotator := ⟨false, 0, 1, 1, 0, 0⟩

/-- C2.  A file qualifying for both the daily and the weekly tier is appended
to `SelectedFiles` twice — once per firing branch — so the selection is not
deduplicated by filename: the same name occurs as two entries (with tag lists
`["daily"]` and `["daily", "weekly"]`), not as one entry with the tag union. -/
theorem selection_duplicates_filename :
    ((rotateSelect rDupTiers [fileA]).getD []).countP (fun b => b.name == fileA.name) = 2 ∧
    (rotateSelect rDupTiers [fileA]).getD [] =
      [{ fileA with tags := ["daily"] }, { fileA with tags := ["daily", "weekly"] }] := by
  decide

/-- 2024-12-30, a Monday belonging to ISO week 1 of week-year 2025. -/
def tsYearEnd : DateTime := ⟨2024, 12, 30, 3, 0, 0⟩

/-- 2025-01-02, a Thursday in the same ISO week as `tsYearEnd`. -/
def tsYearStart : DateTime := ⟨2025, 1, 2, 4, 30, 0⟩

/-- C3.  The code pairs the ISO week *number* with the *calendar* year
(`Time.Year()`), not the ISO week-year: two timestamps in the same ISO week
(2025 week 01) around the year boundary get the different bucket keys
`"2024-W01"` and `"2025-W01"`, so they do not map to the same week key as the
specified `YYYY-Www` ISO week-year derivation requires. -/
theorem weekKey_uses_calendar_year :
    isoWeek tsYearEnd = (2025, 1) ∧ isoWeek tsYearStart = (2025, 1) ∧
    weekKey tsYearEnd = "2024-W01" ∧ weekKey tsYearStart = "2025-W01" ∧
    weekKey tsYearEnd ≠ weekKey tsYearStart := by decide

/-- Keep-one policy with all generation quotas zero. -/
def rKeepOne : Rotator := ⟨false, 1, 0, 0, 0, 0⟩

/-- A world whose destination directory cannot be listed. -/
def wUnreadableDest : World := ⟨["stale"], false, [], [], [fileA.name, fileB.name], []⟩

/-- C4.  `Rotate` discards the error returned by `clear()` (line 126): when
the destination cannot even be listed, the run is not aborted — a symlink is
still created and the unselected source file is still pruned. -/
theorem clear_failure_not_fatal :
    (Rotate rKeepOne [fileA, fileB] wUnreadableDest).map
        (fun res => (res.clearErr, res.created, res.removedAttempts, res.world.src)) =
      some (true, ["keep-" ++ fileA.name], [fileB.name], [fileA.name]) := by decide

/-- The default CLI policy (main.go lines 190-214). -/
def rDefaults : Rotator := ⟨false, 5, 7, 5, 6, 2⟩

/-- An ordinary world with an empty source directory. -/
def wEmptySrc : World := ⟨[], true, [], [], [], []⟩

/-- C5.  When the scanner matches zero files the action hits
`if len(files) == 0 { return err }` with `err` necessarily `nil`, so the run
stops before `Rotate` but the process exits with status zero — a successful
exit, not the non-zero "no backups found" abort the spec requires. -/
theorem empty_scan_exits_zero :
    runMain rDefaults (some []) wEmptySrc = RunOutcome.emptyNoRotate ∧
    exitsNonZero (runMain rDefaults (some []) wEmptySrc) = false := by decide

/-- C6.  In `remove`, the first failed deletion returns immediately: with two
unselected files where deleting the first fails, the second is never
attempted and survives in the source directory even though its own deletion
would have succeeded — remaining candidates are not processed. -/
theorem remove_aborts_on_first_failure :
    removeLoop false [] [fileA.name] [fileA, fileB] [fileA.name, fileB.name] [] =
      ([fileA.name, fileB.name], [fileA.name], true) := by decide

lemma containsKey_true_iff (m : List (String × BackupFile)) (k : String) :
    containsKey m k = true ↔ k ∈ m.map Prod.fst := by
  simp [containsKey, List.any_eq_true, List.mem_map, beq_iff_eq]

lemma containsKey_false_iff (m : List (String × BackupFile)) (k : String) :
    containsKey m k = false ↔ k ∉ m.map Prod.fst := by
  rw [← Bool.not_eq_true, not_iff_not, containsKey_true_iff]

lemma tierStep_spec (quota : Int) (k tag : String) (b : BackupFile)
    (m : List (String × BackupFile)) (sel : List BackupFile) :
    (¬(k ∉ m.map Prod.fst ∧ (m.length : Int) < quota) ∧ tierStep quota k tag b m sel = ⟨b, m, sel⟩) ∨
    ((k ∉ m.map Prod.fst ∧ (m.length : Int) < quota) ∧
      tierStep quota k tag b m sel =
        ⟨{ b with tags := b.tags ++ [tag] }, (k, { b with tags := b.tags ++ [tag] }) :: m,
          sel ++ [{ b with tags := b.tags ++ [tag] }]⟩) := by
  unfold tierStep
  split_ifs with h
  · exact Or.inr ⟨⟨(containsKey_false_iff _ _).1 h.1, h.2⟩, rfl⟩
  · refine Or.inl ⟨fun hk => h ⟨(containsKey_false_iff _ _).2 hk.1, hk.2⟩, rfl⟩

lemma tierStep_file_time (quota : Int) (k tag : String) (b : BackupFile) (m sel) :
    (tierStep quota k tag b m sel).file.time = b.time := by
  rcases tierStep_spec quota k tag b m sel with ⟨_, he⟩ | ⟨_, he⟩ <;> rw [he]

lemma tierStep_file_name (quota : Int) (k tag : String) (b : BackupFile) (m sel) :
    (tierStep quota k tag b m sel).file.name = b.name := by
  rcases tierStep_spec quota k tag b m sel with ⟨_, he⟩ | ⟨_, he⟩ <;> rw [he]

lemma tierStep_sel_mem (quota : Int) (k tag : String) (b : BackupFile) (m sel) :
    ∀ x ∈ (tierStep quota k tag b m sel).sel, x ∈ sel ∨ x = (tierStep quota k tag b m sel).file := by
  rcases tierStep_spec quota k tag b m sel with ⟨_, he⟩ | ⟨_, he⟩ <;> rw [he] <;>
    intro x hx <;> simp at hx ⊢ <;> tauto

lemma genStep_new_selected (r : Rotator) (s : GenState) (c : BackupFile) (hc : c.tags = []) :
    ∀ x ∈ (genStep r s c).selected, x ∈ s.selected ∨
      (x.time = c.time ∧ x.name = c.name ∧
       ("daily" ∈ x.tags → dateKey c.time ∉ s.daily.map Prod.fst ∧ (s.daily.length : Int) < r.keepDays) ∧
       ("weekly" ∈ x.tags → weekKey c.time ∉ s.weekly.map Prod.fst ∧ (s.weekly.length : Int) < r.keepWeeks) ∧
       ("monthly" ∈ x.tags → monthKey c.time ∉ s.monthly.map Prod.fst ∧ (s.monthly.length : Int) < r.keepMonths) ∧
       ("yearly" ∈ x.tags → yearKey c.time ∉ s.yearly.map Prod.fst ∧ (s.yearly.length : Int) < r.keepYears)) := by
  set t1 := tierStep r.keepDays (dateKey c.time) "daily" c s.daily s.selected with ht1
  set t2 := tierStep r.keepWeeks (weekKey t1.file.time) "weekly" t1.file s.weekly t1.sel with ht2
  set t3 := tierStep r.keepMonths (monthKey t2.file.time) "monthly" t2.file s.monthly t2.sel with ht3
  set t4 := tierStep r.keepYears (yearKey t3.file.time) "yearly" t3.file s.yearly t3.sel with ht4
  have hfin : (genStep r s c).selected = t4.sel := rfl
  have e1 : t1.file.time = c.time := by rw [ht1, tierStep_file_time]
  have e2 : t2.file.time = c.time := by rw [ht2, tierStep_file_time, e1]
  have e3 : t3.file.time = c.time := by rw [ht3, tierStep_file_time, e2]
  have e4 : t4.file.time = c.time := by rw [ht4, tierStep_file_time, e3]
  have n1 : t1.file.name = c.name := by rw [ht1, tierStep_file_name]
  have n2 : t2.file.name = c.name := by rw [ht2, tierStep_file_name, n1]
  have n3 : t3.file.name = c.name := by rw [ht3, tierStep_file_name, n2]
  have n4 : t4.file.name = c.name := by rw [ht4, tierStep_file_name, n3]
  have htags1 : t1.file.tags = c.tags ∨ (t1.file.tags = c.tags ++ ["daily"] ∧
      dateKey c.time ∉ s.daily.map Prod.fst ∧ (s.daily.length : Int) < r.keepDays) := by
    rcases tierStep_spec r.keepDays (dateKey c.time) "daily" c s.daily s.selected with
      ⟨hcnd, he⟩ | ⟨hcnd, he⟩
    · left; rw [ht1, he]
    · right; rw [ht1, he]; exact ⟨rfl, hcnd.1, hcnd.2⟩
  have htags2 : t2.file.tags = t1.file.tags ∨ (t2.file.tags = t1.file.tags ++ ["weekly"] ∧
      weekKey c.time ∉ s.weekly.map Prod.fst ∧ (s.weekly.length : Int) < r.keepWeeks) := by
    rcases tierStep_spec r.keepWeeks (weekKey t1.file.time) "weekly" t1.file s.weekly t1.sel with
      ⟨hcnd, he⟩ | ⟨hcnd, he⟩
    · left; rw [ht2, he]
    · right; rw [e1] at hcnd; rw [ht2, he]; exact ⟨rfl, hcnd.1, hcnd.2⟩
  have htags3 : t3.file.tags = t2.file.tags ∨ (t3.file.tags = t2.file.tags ++ ["monthly"] ∧
      monthKey c.time ∉ s.monthly.map Prod.fst ∧ (s.monthly.length : Int) < r.keepMonths) := by
    rcases tierStep_spec r.keepMonths (monthKey t2.file.time) "monthly" t2.file s.monthly t2.sel with
      ⟨hcnd, he⟩ | ⟨hcnd, he⟩
    · left; rw [ht3, he]
    · right; rw [e2] at hcnd; rw [ht3, he]; exact ⟨rfl, hcnd.1, hcnd.2⟩
  have htags4 : t4.file.tags = t3.file.tags ∨ (t4.file.tags = t3.file.tags ++ ["yearly"] ∧
      yearKey c.time ∉ s.yearly.map Prod.fst ∧ (s.yearly.length : Int) < r.keepYears) := by
    rcases tierStep_spec r.keepYears (yearKey t3.file.time) "yearly" t3.file s.yearly t3.sel with
      ⟨hcnd, he⟩ | ⟨hcnd, he⟩
    · left; rw [ht4, he]
    · right; rw [e3] at hcnd; rw [ht4, he]; exact ⟨rfl, hcnd.1, hcnd.2⟩
  have hD1 : "daily" ∈ t1.file.tags →
      dateKey c.time ∉ s.daily.map Prod.fst ∧ (s.daily.length : Int) < r.keepDays := by
    rcases htags1 with h | ⟨h, hd⟩
    · rw [h, hc]; intro hx; exact absurd hx (by decide)
    · exact fun _ => hd
  have hW1 : "weekly" ∈ t1.file.tags →
      weekKey c.time ∉ s.weekly.map Prod.fst ∧ (s.weekly.length : Int) < r.keepWeeks := by
    rcases htags1 with h | ⟨h, _⟩ <;> rw [h, hc] <;> intro hx <;> exact absurd hx (by decide)
  have hM1 : "monthly" ∈ t1.file.tags →
      monthKey c.time ∉ s.monthly.map Prod.fst ∧ (s.monthly.length : Int) < r.keepMonths := by
    rcases htags1 with h | ⟨h, _⟩ <;> rw [h, hc] <;> intro hx <;> exact absurd hx (by decide)
  have hY1 : "yearly" ∈ t1.file.tags →
      yearKey c.time ∉ s.yearly.map Prod.fst ∧ (s.yearly.length : Int) < r.keepYears := by
    rcases htags1 with h | ⟨h, _⟩ <;> rw [h, hc] <;> intro hx <;> exact absurd hx (by decide)
  have hD2 : "daily" ∈ t2.file.tags →
      dateKey c.time ∉ s.daily.map Prod.fst ∧ (s.daily.length : Int) < r.keepDays := by
    rcases htags2 with h | ⟨h, _⟩ <;> rw [h] <;> intro hx
    · exact hD1 hx
    · rcases List.mem_append.1 hx with hx | hx
      · exact hD1 hx
      · exact absurd hx (by decide)
  have hW2 : "weekly" ∈ t2.file.tags →
      weekKey c.time ∉ s.weekly.map Prod.fst ∧ (s.weekly.length : Int) < r.keepWeeks := by
    rcases htags2 with h | ⟨h, hw⟩ <;> rw [h] <;> intro hx
    · exact hW1 hx
    · exact hw
  have hM2 : "monthly" ∈ t2.file.tags →
      monthKey c.time ∉ s.monthly.map Prod.fst ∧ (s.monthly.length : Int) < r.keepMonths := by
    rcases htags2 with h | ⟨h, _⟩ <;> rw [h] <;> intro hx
    · exact hM1 hx
    · rcases List.mem_append.1 hx with hx | hx
      · exact hM1 hx
      · exact absurd hx (by decide)
  have hY2 : "yearly" ∈ t2.file.tags →
      yearKey c.time ∉ s.yearly.map Prod.fst ∧ (s.yearly.length : Int) < r.keepYears := by
    rcases htags2 with h | ⟨h, _⟩ <;> rw [h] <;> intro hx
    · exact hY1 hx
    · rcases List.mem_append.1 hx with hx | hx
      · exact hY1 hx
      · exact absurd hx (by decide)
  have hD3 : "daily" ∈ t3.file.tags →
      dateKey c.time ∉ s.daily.map Prod.fst ∧ (s.daily.length : Int) < r.keepDays := by
    rcases htags3 with h | ⟨h, _⟩ <;> rw [h] <;> intro hx
    · exact hD2 hx
    · rcases List.mem_append.1 hx with hx | hx
      · exact hD2 hx
      · exact absurd hx (by decide)
  have hW3 : "weekly" ∈ t3.file.tags →
      weekKey c.time ∉ s.weekly.map Prod.fst ∧ (s.weekly.length : Int) < r.keepWeeks := by
    rcases htags3 with h | ⟨h, _⟩ <;> rw [h] <;> intro hx
    · exact hW2 hx
    · rcases List.mem_append.1 hx with hx | hx
      · exact hW2 hx
      · exact absurd hx (by decide)
  have hM3 : "monthly" ∈ t3.file.tags →
      monthKey c.time ∉ s.monthly.map Prod.fst ∧ (s.monthly.length : Int) < r.keepMonths := by
    rcases htags3 with h | ⟨h, hm⟩ <;> rw [h] <;> intro hx
    · exact hM2 hx
    · exact hm
  have hY3 : "yearly" ∈ t3.file.tags →
      yearKey c.time ∉ s.yearly.map Prod.fst ∧ (s.yearly.length : Int) < r.keepYears := by
    rcases htags3 with h | ⟨h, _⟩ <;> rw [h] <;> intro hx
    · exact hY2 hx
    · rcases List.mem_append.1 hx with hx | hx
      · exact hY2 hx
      · exact absurd hx (by decide)
  have hD4 : "daily" ∈ t4.file.tags →
      dateKey c.time ∉ s.daily.map Prod.fst ∧ (s.daily.length : Int) < r.keepDays := by
    rcases htags4 with h | ⟨h, _⟩ <;> rw [h] <;> intro hx
    · exact hD3 hx
    · rcases List.mem_append.1 hx with hx | hx
      · exact hD3 hx
      · exact absurd hx (by decide)
  have hW4 : "weekly" ∈ t4.file.tags →
      weekKey c.time ∉ s.weekly.map Prod.fst ∧ (s.weekly.length : Int) < r.keepWeeks := by
    rcases htags4 with h | ⟨h, _⟩ <;> rw [h] <;> intro hx
    · exact hW3 hx
    · rcases List.mem_append.1 hx with hx | hx
      · exact hW3 hx
      · exact absurd hx (by decide)
  have hM4 : "monthly" ∈ t4.file.tags →
      monthKey c.time ∉ s.monthly.map Prod.fst ∧ (s.monthly.length : Int) < r.keepMonths := by
    rcases htags4 with h | ⟨h, _⟩ <;> rw [h] <;> intro hx
    · exact hM3 hx
    · rcases List.mem_append.1 hx with hx | hx
      · exact hM3 hx
      · exact absurd hx (by decide)
  have hY4 : "yearly" ∈ t4.file.tags →
      yearKey c.time ∉ s.yearly.map Prod.fst ∧ (s.yearly.length : Int) < r.keepYears := by
    rcases htags4 with h | ⟨h, hy⟩ <;> rw [h] <;> intro hx
    · exact hY3 hx
    · exact hy
  have s1 := tierStep_sel_mem r.keepDays (dateKey c.time) "daily" c s.daily s.selected
  have s2 := tierStep_sel_mem r.keepWeeks (weekKey t1.file.time) "weekly" t1.file s.weekly t1.sel
  have s3 := tierStep_sel_mem r.keepMonths (monthKey t2.file.time) "monthly" t2.file s.monthly t2.sel
  have s4 := tierStep_sel_mem r.keepYears (yearKey t3.file.time) "yearly" t3.file s.yearly t3.sel
  rw [← ht1] at s1
  rw [← ht2] at s2
  rw [← ht3] at s3
  rw [← ht4] at s4
  intro x hx
  rw [hfin] at hx
  rcases s4 x hx with hx | hx
  · rcases s3 x hx with hx | hx
    · rcases s2 x hx with hx | hx
      · rcases s1 x hx with hx | hx
        · exact Or.inl hx
        · subst hx; exact Or.inr ⟨e1, n1, hD1, hW1, hM1, hY1⟩
      · subst hx; exact Or.inr ⟨e2, n2, hD2, hW2, hM2, hY2⟩
    · subst hx; exact Or.inr ⟨e3, n3, hD3, hW3, hM3, hY3⟩
  · subst hx; exact Or.inr ⟨e4, n4, hD4, hW4, hM4, hY4⟩

lemma genStep_daily_spec (r : Rotator) (s : GenState) (c : BackupFile) :
    ((genStep r s c).daily = s.daily ∧
      (dateKey c.time ∈ s.daily.map Prod.fst ∨ ¬((s.daily.length : Int) < r.keepDays))) ∨
    (∃ x, (genStep r s c).daily = (dateKey c.time, x) :: s.daily ∧
      dateKey c.time ∉ s.daily.map Prod.fst ∧ (s.daily.length : Int) < r.keepDays) := by
  have hfin : (genStep r s c).daily =
      (tierStep r.keepDays (dateKey c.time) "daily" c s.daily s.selected).buckets := rfl
  rcases tierStep_spec r.keepDays (dateKey c.time) "daily" c s.daily s.selected with
    ⟨hcnd, he⟩ | ⟨hcnd, he⟩
  · left; rw [hfin, he]; exact ⟨rfl, by tauto⟩
  · right; rw [hfin, he]; exact ⟨_, rfl, hcnd.1, hcnd.2⟩

lemma genStep_weekly_spec (r : Rotator) (s : GenState) (c : BackupFile) :
    ((genStep r s c).weekly = s.weekly ∧
      (weekKey c.time ∈ s.weekly.map Prod.fst ∨ ¬((s.weekly.length : Int) < r.keepWeeks))) ∨
    (∃ x, (genStep r s c).weekly = (weekKey c.time, x) :: s.weekly ∧
      weekKey c.time ∉ s.weekly.map Prod.fst ∧ (s.weekly.length : Int) < r.keepWeeks) := by
  set t1 := tierStep r.keepDays (dateKey c.time) "daily" c s.daily s.selected with ht1
  have e1 : t1.file.time = c.time := by rw [ht1, tierStep_file_time]
  have hfin : (genStep r s c).weekly =
      (tierStep r.keepWeeks (weekKey t1.file.time) "weekly" t1.file s.weekly t1.sel).buckets := rfl
  rcases tierStep_spec r.keepWeeks (weekKey t1.file.time) "weekly" t1.file s.weekly t1.sel with
    ⟨hcnd, he⟩ | ⟨hcnd, he⟩
  · rw [e1] at hcnd; left; rw [hfin, he]; exact ⟨rfl, by tauto⟩
  · rw [e1] at hcnd; right; rw [hfin, he, e1]; exact ⟨_, rfl, hcnd.1, hcnd.2⟩

lemma genStep_monthly_spec (r : Rotator) (s : GenState) (c : BackupFile) :
    ((genStep r s c).monthly = s.monthly ∧
      (monthKey c.time ∈ s.monthly.map Prod.fst ∨ ¬((s.monthly.length : Int) < r.keepMonths))) ∨
    (∃ x, (genStep r s c).monthly = (monthKey c.time, x) :: s.monthly ∧
      monthKey c.time ∉ s.monthly.map Prod.fst ∧ (s.monthly.length : Int) < r.keepMonths) := by
  set t1 := tierStep r.keepDays (dateKey c.time) "daily" c s.daily s.selected with ht1
  set t2 := tierStep r.keepWeeks (weekKey t1.file.time) "weekly" t1.file s.weekly t1.sel with ht2
  have e1 : t1.file.time = c.time := by rw [ht1, tierStep_file_time]
  have e2 : t2.file.time = c.time := by rw [ht2, tierStep_file_time, e1]
  have hfin : (genStep r s c).monthly =
      (tierStep r.keepMonths (monthKey t2.file.time) "monthly" t2.file s.monthly t2.sel).buckets := rfl
  rcases tierStep_spec r.keepMonths (monthKey t2.file.time) "monthly" t2.file s.monthly t2.sel with
    ⟨hcnd, he⟩ | ⟨hcnd, he⟩
  · rw [e2] at hcnd; left; rw [hfin, he]; exact ⟨rfl, by tauto⟩
  · rw [e2] at hcnd; right; rw [hfin, he, e2]; exact ⟨_, rfl, hcnd.1, hcnd.2⟩

lemma genStep_yearly_spec (r : Rotator) (s : GenState) (c : BackupFile) :
    ((genStep r s c).yearly = s.yearly ∧
      (yearKey c.time ∈ s.yearly.map Prod.fst ∨ ¬((s.yearly.length : Int) < r.keepYears))) ∨
    (∃ x, (genStep r s c).yearly = (yearKey c.time, x) :: s.yearly ∧
      yearKey c.time ∉ s.yearly.map Prod.fst ∧ (s.yearly.length : Int) < r.keepYears) := by
  set t1 := tierStep r.keepDays (dateKey c.time) "daily" c s.daily s.selected with ht1
  set t2 := tierStep r.keepWeeks (weekKey t1.file.time) "weekly" t1.file s.weekly t1.sel with ht2
  set t3 := tierStep r.keepMonths (monthKey t2.file.time) "monthly" t2.file s.monthly t2.sel with ht3
  have e1 : t1.file.time = c.time := by rw [ht1, tierStep_file_time]
  have e2 : t2.file.time = c.time := by rw [ht2, tierStep_file_time, e1]
  have e3 : t3.file.time = c.time := by rw [ht3, tierStep_file_time, e2]
  have hfin : (genStep r s c).yearly =
      (tierStep r.keepYears (yearKey t3.file.time) "yearly" t3.file s.yearly t3.sel).buckets := rfl
  rcases tierStep_spec r.keepYears (yearKey t3.file.time) "yearly" t3.file s.yearly t3.sel with
    ⟨hcnd, he⟩ | ⟨hcnd, he⟩
  · rw [e3] at hcnd; left; rw [hfin, he]; exact ⟨rfl, by tauto⟩
  · rw [e3] at hcnd; right; rw [hfin, he, e3]; exact ⟨_, rfl, hcnd.1, hcnd.2⟩

lemma genStep_daily_keys_mono (r : Rotator) (s : GenState) (c : BackupFile) :
    s.daily.map Prod.fst ⊆ (genStep r s c).daily.map Prod.fst := by
  rcases genStep_daily_spec r s c with ⟨he, _⟩ | ⟨x, he, _⟩ <;> rw [he]
  · exact fun a ha => ha
  · intro a ha
    rw [List.map_cons]
    exact List.mem_cons_of_mem _ ha

lemma genStep_daily_len_ge (r : Rotator) (s : GenState) (c : BackupFile) :
    s.daily.length ≤ (genStep r s c).daily.length := by
  rcases genStep_daily_spec r s c with ⟨he, _⟩ | ⟨x, he, _⟩ <;> (rw [he]; try simp)

lemma genStep_daily_len_le (r : Rotator) (s : GenState) (c : BackupFile)
    (h : (s.daily.length : Int) ≤ max r.keepDays 0) :
    ((genStep r s c).daily.length : Int) ≤ max r.keepDays 0 := by
  rcases genStep_daily_spec r s c with ⟨he, _⟩ | ⟨x, he, _, hlt⟩ <;> rw [he]
  · exact h
  · simp only [List.length_cons]
    push_cast
    omega

lemma genStep_daily_fires (r : Rotator) (s : GenState) (c : BackupFile)
    (h1 : dateKey c.time ∉ s.daily.map Prod.fst) (h2 : (s.daily.length : Int) < r.keepDays) :
    dateKey c.time ∈ (genStep r s c).daily.map Prod.fst := by
  rcases genStep_daily_spec r s c with ⟨_, hcnd⟩ | ⟨x, he, _⟩
  · exact absurd hcnd (by tauto)
  · rw [he]; simp

lemma genStep_weekly_keys_mono (r : Rotator) (s : GenState) (c : BackupFile) :
    s.weekly.map Prod.fst ⊆ (genStep r s c).weekly.map Prod.fst := by
  rcases genStep_weekly_spec r s c with ⟨he, _⟩ | ⟨x, he, _⟩ <;> rw [he]
  · exact fun a ha => ha
  · intro a ha
    rw [List.map_cons]
    exact List.mem_cons_of_mem _ ha

lemma genStep_weekly_len_ge (r : Rotator) (s : GenState) (c : BackupFile) :
    s.weekly.length ≤ (genStep r s c).weekly.length := by
  rcases genStep_weekly_spec r s c with ⟨he, _⟩ | ⟨x, he, _⟩ <;> (rw [he]; try simp)

lemma genStep_weekly_len_le (r : Rotator) (s : GenState) (c : BackupFile)
    (h : (s.weekly.length : Int) ≤ max r.keepWeeks 0) :
    ((genStep r s c).weekly.length : Int) ≤ max r.keepWeeks 0 := by
  rcases genStep_weekly_spec r s c with ⟨he, _⟩ | ⟨x, he, _, hlt⟩ <;> rw [he]
  · exact h
  · simp only [List.length_cons]
    push_cast
    omega

lemma genStep_weekly_fires (r : Rotator) (s : GenState) (c : BackupFile)
    (h1 : weekKey c.time ∉ s.weekly.map Prod.fst) (h2 : (s.weekly.length : Int) < r.keepWeeks) :
    weekKey c.time ∈ (genStep r s c).weekly.map Prod.fst := by
  rcases genStep_weekly_spec r s c with ⟨_, hcnd⟩ | ⟨x, he, _⟩
  · exact absurd hcnd (by tauto)
  · rw [he]; simp

lemma genStep_monthly_keys_mono (r : Rotator) (s : GenState) (c : BackupFile) :
    s.monthly.map Prod.fst ⊆ (genStep r s c).monthly.map Prod.fst := by
  rcases genStep_monthly_spec r s c with ⟨he, _⟩ | ⟨x, he, _⟩ <;> rw [he]
  · exact fun a ha => ha
  · intro a ha
    rw [List.map_cons]
    exact List.mem_cons_of_mem _ ha

lemma genStep_monthly_len_ge (r : Rotator) (s : GenState) (c : BackupFile) :
    s.monthly.length ≤ (genStep r s c).monthly.length := by
  rcases genStep_monthly_spec r s c with ⟨he, _⟩ | ⟨x, he, _⟩ <;> (rw [he]; try simp)

lemma genStep_monthly_len_le (r : Rotator) (s : GenState) (c : BackupFile)
    (h : (s.monthly.length : Int) ≤ max r.keepMonths 0) :
    ((genStep r s c).monthly.length : Int) ≤ max r.keepMonths 0 := by
  rcases genStep_monthly_spec r s c with ⟨he, _⟩ | ⟨x, he, _, hlt⟩ <;> rw [he]
  · exact h
  · simp only [List.length_cons]
    push_cast
    omega

lemma genStep_monthly_fires (r : Rotator) (s : GenState) (c : BackupFile)
    (h1 : monthKey c.time ∉ s.monthly.map Prod.fst) (h2 : (s.monthly.length : Int) < r.keepMonths) :
    monthKey c.time ∈ (genStep r s c).monthly.map Prod.fst := by
  rcases genStep_monthly_spec r s c with ⟨_, hcnd⟩ | ⟨x, he, _⟩
  · exact absurd hcnd (by tauto)
  · rw [he]; simp

lemma genStep_yearly_keys_mono (r : Rotator) (s : GenState) (c : BackupFile) :
    s.yearly.map Prod.fst ⊆ (genStep r s c).yearly.map Prod.fst := by
  rcases genStep_yearly_spec r s c with ⟨he, _⟩ | ⟨x, he, _⟩ <;> rw [he]
  · exact fun a ha => ha
  · intro a ha
    rw [List.map_cons]
    exact List.mem_cons_of_mem _ ha

lemma genStep_yearly_len_ge (r : Rotator) (s : GenState) (c : BackupFile) :
    s.yearly.length ≤ (genStep r s c).yearly.length := by
  rcases genStep_yearly_spec r s c with ⟨he, _⟩ | ⟨x, he, _⟩ <;> (rw [he]; try simp)

lemma genStep_yearly_len_le (r : Rotator) (s : GenState) (c : BackupFile)
    (h : (s.yearly.length : Int) ≤ max r.keepYears 0) :
    ((genStep r s c).yearly.length : Int) ≤ max r.keepYears 0 := by
  rcases genStep_yearly_spec r s c with ⟨he, _⟩ | ⟨x, he, _, hlt⟩ <;> rw [he]
  · exact h
  · simp only [List.length_cons]
    push_cast
    omega

lemma genStep_yearly_fires (r : Rotator) (s : GenState) (c : BackupFile)
    (h1 : yearKey c.time ∉ s.yearly.map Prod.fst) (h2 : (s.yearly.length : Int) < r.keepYears) :
    yearKey c.time ∈ (genStep r s c).yearly.map Prod.fst := by
  rcases genStep_yearly_spec r s c with ⟨_, hcnd⟩ | ⟨x, he, _⟩
  · exact absurd hcnd (by tauto)
  · rw [he]; simp

/-- The bucket-map invariant carried through the generational loop: each map
stays within its quota, and every selected file carrying a tier tag has its
bucket key registered in that tier's map. -/
def TierInv (tag : String) (key : DateTime → String)
    (m : List (String × BackupFile)) (sel : List BackupFile) : Prop :=
  ∀ b ∈ sel, tag ∈ b.tags → key b.time ∈ m.map Prod.fst

def GenInv (r : Rotator) (s : GenState) : Prop :=
  (s.daily.length : Int) ≤ max r.keepDays 0 ∧
  (s.weekly.length : Int) ≤ max r.keepWeeks 0 ∧
  (s.monthly.length : Int) ≤ max r.keepMonths 0 ∧
  (s.yearly.length : Int) ≤ max r.keepYears 0 ∧
  TierInv "daily" dateKey s.daily s.selected ∧
  TierInv "weekly" weekKey s.weekly s.selected ∧
  TierInv "monthly" monthKey s.monthly s.selected ∧
  TierInv "yearly" yearKey s.yearly s.selected

lemma GenInv_step (r : Rotator) (s : GenState) (c : BackupFile) (hc : c.tags = [])
    (h : GenInv r s) : GenInv r (genStep r s c) := by
  obtain ⟨l1, l2, l3, l4, i1, i2, i3, i4⟩ := h
  refine ⟨genStep_daily_len_le r s c l1, genStep_weekly_len_le r s c l2,
    genStep_monthly_len_le r s c l3, genStep_yearly_len_le r s c l4, ?_, ?_, ?_, ?_⟩
  · intro b hb htag
    rcases genStep_new_selected r s c hc b hb with hold | ⟨ht, _, hD, _, _, _⟩
    · exact genStep_daily_keys_mono r s c (i1 b hold htag)
    · rw [ht]
      obtain ⟨hk, hl⟩ := hD htag
      exact genStep_daily_fires r s c hk hl
  · intro b hb htag
    rcases genStep_new_selected r s c hc b hb with hold | ⟨ht, _, _, hW, _, _⟩
    · exact genStep_weekly_keys_mono r s c (i2 b hold htag)
    · rw [ht]
      obtain ⟨hk, hl⟩ := hW htag
      exact genStep_weekly_fires r s c hk hl
  · intro b hb htag
    rcases genStep_new_selected r s c hc b hb with hold | ⟨ht, _, _, _, hM, _⟩
    · exact genStep_monthly_keys_mono r s c (i3 b hold htag)
    · rw [ht]
      obtain ⟨hk, hl⟩ := hM htag
      exact genStep_monthly_fires r s c hk hl
  · intro b hb htag
    rcases genStep_new_selected r s c hc b hb with hold | ⟨ht, _, _, _, _, hY⟩
    · exact genStep_yearly_keys_mono r s c (i4 b hold htag)
    · rw [ht]
      obtain ⟨hk, hl⟩ := hY htag
      exact genStep_yearly_fires r s c hk hl

lemma GenInv_foldl (r : Rotator) : ∀ (l : List BackupFile) (s : GenState),
    (∀ c ∈ l, c.tags = []) → GenInv r s → GenInv r (l.foldl (genStep r) s)
  | [], _, _, h => h
  | c :: l, s, hl, h =>
    GenInv_foldl r l (genStep r s c) (fun d hd => hl d (List.mem_cons_of_mem _ hd))
      (GenInv_step r s c (hl c (List.mem_cons_self _ _)) h)

/-- Number of distinct bucket keys of one tier represented in the selection
by that tier's tag. -/
def tierKeyCount (tag : String) (key : DateTime → String) (sel : List BackupFile) : Nat :=
  ((sel.filter (fun b => decide (tag ∈ b.tags))).map (fun b => key b.time)).dedup.length

lemma tierKeyCount_le (tag : String) (key : DateTime → String)
    (m : List (String × BackupFile)) (sel : List BackupFile)
    (h : TierInv tag key m sel) : tierKeyCount tag key sel ≤ m.length := by
  have h1 : ((sel.filter (fun b => decide (tag ∈ b.tags))).map (fun b => key b.time)).toFinset ⊆
      (m.map Prod.fst).toFinset := by
    intro a ha
    rw [List.mem_toFinset] at ha ⊢
    obtain ⟨b, hb, rfl⟩ := List.mem_map.1 ha
    obtain ⟨hbs, hbt⟩ := List.mem_filter.1 hb
    exact h b hbs (of_decide_eq_true hbt)
  have h2 : tierKeyCount tag key sel =
      ((sel.filter (fun b => decide (tag ∈ b.tags))).map (fun b => key b.time)).toFinset.card :=
    (List.card_toFinset _).symm
  rw [h2]
  calc ((sel.filter (fun b => decide (tag ∈ b.tags))).map (fun b => key b.time)).toFinset.card
      ≤ (m.map Prod.fst).toFinset.card := Finset.card_le_card h1
    _ ≤ (m.map Prod.fst).length := (m.map Prod.fst).toFinset_card_le
    _ = m.length := List.length_map _ _

lemma GenInv_init (r : Rotator) (keepPart : List BackupFile)
    (h : ∀ b ∈ keepPart, "daily" ∉ b.tags ∧ "weekly" ∉ b.tags ∧
      "monthly" ∉ b.tags ∧ "yearly" ∉ b.tags) :
    GenInv r ⟨[], [], [], [], keepPart⟩ := by
  refine ⟨by simp, by simp, by simp, by simp, ?_, ?_, ?_, ?_⟩
  · exact fun b hb htag => absurd htag (h b hb).1
  · exact fun b hb htag => absurd htag (h b hb).2.1
  · exact fun b hb htag => absurd htag (h b hb).2.2.1
  · exact fun b hb htag => absurd htag (h b hb).2.2.2

lemma rotateSelect_some (r : Rotator) (found sel : List BackupFile)
    (hsel : rotateSelect r found = some sel) :
    ¬(r.keep < 0 ∨ (found.length : Int) < r.keep) ∧
    sel = (((found.drop r.keep.toNat).foldl (genStep r)
      ⟨[], [], [], [],
        (found.take r.keep.toNat).map (fun b => { b with tags := b.tags ++ ["keep"] })⟩).selected) := by
  unfold rotateSelect at hsel
  by_cases hcond : r.keep < 0 ∨ (found.length : Int) < r.keep
  · rw [if_pos hcond] at hsel
    cases hsel
  · rw [if_neg hcond] at hsel
    exact ⟨hcond, (Option.some_inj.1 hsel).symm⟩

lemma tierStep_nonpos (quota : Int) (hq : quota ≤ 0) (k tag : String) (b : BackupFile)
    (m : List (String × BackupFile)) (sel : List BackupFile) :
    tierStep quota k tag b m sel = ⟨b, m, sel⟩ := by
  unfold tierStep
  rw [if_neg]
  rintro ⟨-, hlt⟩
  omega

lemma genStep_keepDays_zero (r : Rotator) (hq : r.keepDays ≤ 0) (s : GenState) (b : BackupFile) :
    genStep { r with keepDays := 0 } s b = genStep r s b := by
  unfold genStep
  rw [tierStep_nonpos 0 le_rfl, tierStep_nonpos r.keepDays hq]

lemma genStep_keepWeeks_zero (r : Rotator) (hq : r.keepWeeks ≤ 0) (s : GenState) (b : BackupFile) :
    genStep { r with keepWeeks := 0 } s b = genStep r s b := by
  simp only [genStep, tierStep_nonpos 0 le_rfl, tierStep_nonpos r.keepWeeks hq]

lemma genStep_keepMonths_zero (r : Rotator) (hq : r.keepMonths ≤ 0) (s : GenState) (b : BackupFile) :
    genStep { r with keepMonths := 0 } s b = genStep r s b := by
  simp only [genStep, tierStep_nonpos 0 le_rfl, tierStep_nonpos r.keepMonths hq]

lemma genStep_keepYears_zero (r : Rotator) (hq : r.keepYears ≤ 0) (s : GenState) (b : BackupFile) :
    genStep { r with keepYears := 0 } s b = genStep r s b := by
  simp only [genStep, tierStep_nonpos 0 le_rfl, tierStep_nonpos r.keepYears hq]

lemma rotateSelect_keepDays_zero (r : Rotator) (hq : r.keepDays ≤ 0) (found : List BackupFile) :
    rotateSelect { r with keepDays := 0 } found = rotateSelect r found := by
  have hg : genStep { r with keepDays := 0 } = genStep r :=
    funext fun s => funext fun b => genStep_keepDays_zero r hq s b
  simp only [rotateSelect, hg]

lemma rotateSelect_keepWeeks_zero (r : Rotator) (hq : r.keepWeeks ≤ 0) (found : List BackupFile) :
    rotateSelect { r with keepWeeks := 0 } found = rotateSelect r found := by
  have hg : genStep { r with keepWeeks := 0 } = genStep r :=
    funext fun s => funext fun b => genStep_keepWeeks_zero r hq s b
  simp only [rotateSelect, hg]

lemma rotateSelect_keepMonths_zero (r : Rotator) (hq : r.keepMonths ≤ 0) (found : List BackupFile) :
    rotateSelect { r with keepMonths := 0 } found = rotateSelect r found := by
  have hg : genStep { r with keepMonths := 0 } = genStep r :=
    funext fun s => funext fun b => genStep_keepMonths_zero r hq s b
  simp only [rotateSelect, hg]

lemma rotateSelect_keepYears_zero (r : Rotator) (hq : r.keepYears ≤ 0) (found : List BackupFile) :
    rotateSelect { r with keepYears := 0 } found = rotateSelect r found := by
  have hg : genStep { r with keepYears := 0 } = genStep r :=
    funext fun s => funext fun b => genStep_keepYears_zero r hq s b
  simp only [rotateSelect, hg]

lemma rotateSelect_inv (r : Rotator) (found sel : List BackupFile)
    (htags : ∀ b ∈ found, b.tags = [])
    (hsel : rotateSelect r found = some sel) :
    ∃ s : GenState, sel = s.selected ∧ GenInv r s := by
  obtain ⟨-, hs⟩ := rotateSelect_some r found sel hsel
  refine ⟨_, hs, ?_⟩
  apply GenInv_foldl r _ _ (fun c hc => htags c (List.drop_subset _ _ hc))
  apply GenInv_init
  intro b hb
  obtain ⟨b0, hb0, rfl⟩ := List.mem_map.1 hb
  have h0 : b0.tags = [] := htags b0 (List.take_subset _ _ hb0)
  refine ⟨?_, ?_, ?_, ?_⟩ <;> simp [h0]

/-- C10.  A tier whose configured quota is negative selects nothing: the
`len(map) < quota` test is never satisfied, so no file ever carries that
tier's tag, and the whole selection coincides with the one computed under a
quota of zero. -/
theorem negative_quota_selects_nothing (r : Rotator) (found sel : List BackupFile)
    (htags : ∀ b ∈ found, b.tags = [])
    (hsel : rotateSelect r found = some sel) :
    (r.keepDays < 0 → (∀ b ∈ sel, "daily" ∉ b.tags) ∧
      rotateSelect { r with keepDays := 0 } found = some sel) ∧
    (r.keepWeeks < 0 → (∀ b ∈ sel, "weekly" ∉ b.tags) ∧
      rotateSelect { r with keepWeeks := 0 } found = some sel) ∧
    (r.keepMonths < 0 → (∀ b ∈ sel, "monthly" ∉ b.tags) ∧
      rotateSelect { r with keepMonths := 0 } found = some sel) ∧
    (r.keepYears < 0 → (∀ b ∈ sel, "yearly" ∉ b.tags) ∧
      rotateSelect { r with keepYears := 0 } found = some sel) := by
  obtain ⟨s, hs, l1, l2, l3, l4, i1, i2, i3, i4⟩ := rotateSelect_inv r found sel htags hsel
  refine ⟨fun hneg => ⟨?_, ?_⟩, fun hneg => ⟨?_, ?_⟩, fun hneg => ⟨?_, ?_⟩, fun hneg => ⟨?_, ?_⟩⟩
  · intro b hb htag
    have hkey := i1 b (hs ▸ hb) htag
    have hlen : s.daily.length = 0 := by omega
    rw [List.length_eq_zero] at hlen
    rw [hlen] at hkey
    simp at hkey
  · rw [rotateSelect_keepDays_zero r (le_of_lt hneg), hsel]
  · intro b hb htag
    have hkey := i2 b (hs ▸ hb) htag
    have hlen : s.weekly.length = 0 := by omega
    rw [List.length_eq_zero] at hlen
    rw [hlen] at hkey
    simp at hkey
  · rw [rotateSelect_keepWeeks_zero r (le_of_lt hneg), hsel]
  · intro b hb htag
    have hkey := i3 b (hs ▸ hb) htag
    have hlen : s.monthly.length = 0 := by omega
    rw [List.length_eq_zero] at hlen
    rw [hlen] at hkey
    simp at hkey
  · rw [rotateSelect_keepMonths_zero r (le_of_lt hneg), hsel]
  · intro b hb htag
    have hkey := i4 b (hs ▸ hb) htag
    have hlen : s.yearly.length = 0 := by omega
    rw [List.length_eq_zero] at hlen
    rw [hlen] at hkey
    simp at hkey
  · rw [rotateSelect_keepYears_zero r (le_of_lt hneg), hsel]

lemma removeLoop_dry (selNames fail : List String) :
    ∀ (l : List BackupFile) (src att : List String),
      removeLoop true selNames fail l src att = (src, att, false)
  | [], _, _ => rfl
  | b :: rest, src, att => by
    unfold removeLoop
    split_ifs with h1 h2 <;>
      first
        | exact removeLoop_dry selNames fail rest src att
        | simp_all

lemma clearDest_src (w : World) : (clearDest w).1.src = w.src := by
  unfold clearDest
  split_ifs <;> rfl

lemma rotateSelect_dry (r : Rotator) (d : Bool) (found : List BackupFile) :
    rotateSelect { r with dry := d } found = rotateSelect r found := rfl

/-- C9.  With dry-run enabled the source directory is untouched: `remove`
never deletes (the run reports zero deletion attempts and no error), for any
selection outcome; and dry-run changes nothing outside the deletion step —
the selection, the links created, the resulting destination and the
clear/link error flags are those of the same run with dry-run off. -/
theorem dry_run_preserves_source (r : Rotator) (found : List BackupFile) (w : World)
    (res : RotateResult) (hdry : r.dry = true)
    (h : Rotate r found w = some res) :
    res.world.src = w.src ∧ res.removedAttempts = [] ∧ res.removeErr = false ∧
    (Rotate { r with dry := false } found w).map
        (fun x => (x.selected, x.created, x.world.dest, x.clearErr, x.linkErr)) =
      some (res.selected, res.created, res.world.dest, res.clearErr, res.linkErr) := by
  cases hsel : rotateSelect r found with
  | none =>
    simp only [Rotate, hsel] at h
    cases h
  | some sel =>
    simp only [Rotate, hsel, hdry] at h
    rw [removeLoop_dry] at h
    obtain hres := Option.some_inj.1 h
    subst hres
    refine ⟨clearDest_src w, rfl, rfl, ?_⟩
    simp only [Rotate, rotateSelect_dry, hsel, Option.map_some']

/-- Dry-run policy keeping one daily representative. -/
def rDryDayOne : Rotator := ⟨true, 0, 1, 0, 0, 0⟩

/-- A world with a stale destination entry and two source files. -/
def wDryRun : World := ⟨["junk"], true, [], [], [fileA.name, fileB.name], []⟩

/-- The run result of `Rotate rDryDayOne [fileA, fileB] wDryRun`. -/
def resDryRun : RotateResult :=
  ⟨⟨["daily-2024-06-10T12-00-00.sql.gz"], true, [], [],
      ["2024-06-10T12-00-00.sql.gz", "2024-06-09T11-30-00.sql.gz"], []⟩,
    [⟨"2024-06-10T12-00-00.sql.gz", tsA, ["daily"]⟩],
    ["daily-2024-06-10T12-00-00.sql.gz"], [], false, false, false⟩

/-- Witness for C9 at a concrete dry run. -/
theorem dry_run_preserves_source_witness :
    resDryRun.world.src = wDryRun.src ∧ resDryRun.removedAttempts = [] :=
  ⟨(dry_run_preserves_source rDryDayOne [fileA, fileB] wDryRun resDryRun rfl (by decide)).1,
   (dry_run_preserves_source rDryDayOne [fileA, fileB] wDryRun resDryRun rfl (by decide)).2.1⟩

/-- Policy with negative daily, monthly and yearly quotas. -/
def rNegQuota : Rotator := ⟨false, 0, -3, 1, -2, -7⟩

/-- The selection computed under `rNegQuota`: only the weekly tier fires. -/
def selNegQuota : List BackupFile := [{ fileA with tags := ["weekly"] }]

/-- Witness for C10: under negative daily and yearly quotas the selection
equals the one computed with those quotas set to zero. -/
theorem negative_quota_selects_nothing_witness :
    rotateSelect { rNegQuota with keepDays := 0 } [fileA, fileB] = some selNegQuota ∧
    rotateSelect { rNegQuota with keepYears := 0 } [fileA, fileB] = some selNegQuota :=
  ⟨((negative_quota_selects_nothing rNegQuota [fileA, fileB] selNegQuota
      (by decide) (by decide)).1 (by decide)).2,
   ((negative_quota_selects_nothing rNegQuota [fileA, fileB] selNegQuota
      (by decide) (by decide)).2.2.2 (by decide)).2⟩


/-- One iteration of the generational loop as the program actually executes
it: `r.SelectedFiles = r.FoundFiles[:r.Keep]` (main.go line 129) shares the
backing array with `FoundFiles`, and each `append(r.SelectedFiles, backup)`
(lines 150, 156, 162, 168) writes the new entry into slot
`len(SelectedFiles)` of that array.  The range loop reads element `k + i`
from the array at the start of iteration `i`, so it sees the selected entry
written into that slot — if one has been appended already — instead of the
original tail file.  (Appends at indices below the capacity happen before
any reallocation, and reads only occur at indices below the length, so the
capacity never enters.) -/
def genStepAlias (r : Rotator) (k : Nat) (s : GenState) (p : Nat × BackupFile) : GenState :=
  genStep r s ((s.selected[k + p.1]?).getD p.2)

/-- The selection part of `Rotator.Rotate` (main.go lines 128-170) with the
`SelectedFiles`/`FoundFiles` aliasing modelled faithfully: the keep head is
tagged in place, and the generational pass folds `genStepAlias` over the
indexed tail, reading through the shared backing array.  Go panics when
`Keep` is negative or exceeds the found count (at line 129 when it exceeds
the capacity, otherwise at the `FoundFiles[r.Keep:]` slice of line 140) —
modelled as `none`. -/
def rotateSelectAlias (r : Rotator) (found : List BackupFile) : Option (List BackupFile) :=
  if r.keep < 0 ∨ (found.length : Int) < r.keep then none
  else
    let k := r.keep.toNat
    let keepPart := (found.take k).map (fun b => { b with tags := b.tags ++ ["keep"] })
    let s0 : GenState := ⟨[], [], [], [], keepPart⟩
    some (((found.drop k).enum.foldl (genStepAlias r k) s0).selected)

/-- Newest of three files: 2024-06-12, a Wednesday. -/
def fNew : BackupFile := ⟨"2024-06-12T10-00-00.sql.gz", ⟨2024, 6, 12, 10, 0, 0⟩, []⟩

/-- Middle file: the newer of two backups sharing the day 2024-06-11. -/
def fMid : BackupFile := ⟨"2024-06-11T12-00-00.sql.gz", ⟨2024, 6, 11, 12, 0, 0⟩, []⟩

/-- Oldest file: the older of two backups sharing the day 2024-06-11. -/
def fOld : BackupFile := ⟨"2024-06-11T09-00-00.sql.gz", ⟨2024, 6, 11, 9, 0, 0⟩, []⟩

/-- A policy under which the newest file fires two tiers, so the appends
clobber the next unread slot of the shared backing array. -/
def rClobber : Rotator := ⟨false, 0, 2, 1, 0, 0⟩

lemma genStep_selected_origin (r : Rotator) (s : GenState) (c : BackupFile) :
    ∀ x ∈ (genStep r s c).selected, x ∈ s.selected ∨
      (x.time = c.time ∧
       ("daily" ∈ x.tags → "daily" ∈ c.tags ∨
         (dateKey c.time ∉ s.daily.map Prod.fst ∧ (s.daily.length : Int) < r.keepDays)) ∧
       ("weekly" ∈ x.tags → "weekly" ∈ c.tags ∨
         (weekKey c.time ∉ s.weekly.map Prod.fst ∧ (s.weekly.length : Int) < r.keepWeeks)) ∧
       ("monthly" ∈ x.tags → "monthly" ∈ c.tags ∨
         (monthKey c.time ∉ s.monthly.map Prod.fst ∧ (s.monthly.length : Int) < r.keepMonths)) ∧
       ("yearly" ∈ x.tags → "yearly" ∈ c.tags ∨
         (yearKey c.time ∉ s.yearly.map Prod.fst ∧ (s.yearly.length : Int) < r.keepYears))) := by
  set t1 := tierStep r.keepDays (dateKey c.time) "daily" c s.daily s.selected with ht1
  set t2 := tierStep r.keepWeeks (weekKey t1.file.time) "weekly" t1.file s.weekly t1.sel with ht2
  set t3 := tierStep r.keepMonths (monthKey t2.file.time) "monthly" t2.file s.monthly t2.sel with ht3
  set t4 := tierStep r.keepYears (yearKey t3.file.time) "yearly" t3.file s.yearly t3.sel with ht4
  have hfin : (genStep r s c).selected = t4.sel := rfl
  have e1 : t1.file.time = c.time := by rw [ht1, tierStep_file_time]
  have e2 : t2.file.time = c.time := by rw [ht2, tierStep_file_time, e1]
  have e3 : t3.file.time = c.time := by rw [ht3, tierStep_file_time, e2]
  have e4 : t4.file.time = c.time := by rw [ht4, tierStep_file_time, e3]
  have htags1 : t1.file.tags = c.tags ∨ (t1.file.tags = c.tags ++ ["daily"] ∧
      dateKey c.time ∉ s.daily.map Prod.fst ∧ (s.daily.length : Int) < r.keepDays) := by
    rcases tierStep_spec r.keepDays (dateKey c.time) "daily" c s.daily s.selected with
      ⟨hcnd, he⟩ | ⟨hcnd, he⟩
    · left; rw [ht1, he]
    · right; rw [ht1, he]; exact ⟨rfl, hcnd.1, hcnd.2⟩
  have htags2 : t2.file.tags = t1.file.tags ∨ (t2.file.tags = t1.file.tags ++ ["weekly"] ∧
      weekKey c.time ∉ s.weekly.map Prod.fst ∧ (s.weekly.length : Int) < r.keepWeeks) := by
    rcases tierStep_spec r.keepWeeks (weekKey t1.file.time) "weekly" t1.file s.weekly t1.sel with
      ⟨hcnd, he⟩ | ⟨hcnd, he⟩
    · left; rw [ht2, he]
    · right; rw [e1] at hcnd; rw [ht2, he]; exact ⟨rfl, hcnd.1, hcnd.2⟩
  have htags3 : t3.file.tags = t2.file.tags ∨ (t3.file.tags = t2.file.tags ++ ["monthly"] ∧
      monthKey c.time ∉ s.monthly.map Prod.fst ∧ (s.monthly.length : Int) < r.keepMonths) := by
    rcases tierStep_spec r.keepMonths (monthKey t2.file.time) "monthly" t2.file s.monthly t2.sel with
      ⟨hcnd, he⟩ | ⟨hcnd, he⟩
    · left; rw [ht3, he]
    · right; rw [e2] at hcnd; rw [ht3, he]; exact ⟨rfl, hcnd.1, hcnd.2⟩
  have htags4 : t4.file.tags = t3.file.tags ∨ (t4.file.tags = t3.file.tags ++ ["yearly"] ∧
      yearKey c.time ∉ s.yearly.map Prod.fst ∧ (s.yearly.length : Int) < r.keepYears) := by
    rcases tierStep_spec r.keepYears (yearKey t3.file.time) "yearly" t3.file s.yearly t3.sel with
      ⟨hcnd, he⟩ | ⟨hcnd, he⟩
    · left; rw [ht4, he]
    · right; rw [e3] at hcnd; rw [ht4, he]; exact ⟨rfl, hcnd.1, hcnd.2⟩
  have hD1 : "daily" ∈ t1.file.tags → "daily" ∈ c.tags ∨
      (dateKey c.time ∉ s.daily.map Prod.fst ∧ (s.daily.length : Int) < r.keepDays) := by
    rcases htags1 with h | ⟨h, hd⟩
    · rw [h]; exact fun hx => Or.inl hx
    · exact fun _ => Or.inr hd
  have hW1 : "weekly" ∈ t1.file.tags → "weekly" ∈ c.tags ∨
      (weekKey c.time ∉ s.weekly.map Prod.fst ∧ (s.weekly.length : Int) < r.keepWeeks) := by
    rcases htags1 with h | ⟨h, _⟩ <;> rw [h] <;> intro hx
    · exact Or.inl hx
    · rcases List.mem_append.1 hx with hx | hx
      · exact Or.inl hx
      · exact absurd hx (by decide)
  have hM1 : "monthly" ∈ t1.file.tags → "monthly" ∈ c.tags ∨
      (monthKey c.time ∉ s.monthly.map Prod.fst ∧ (s.monthly.length : Int) < r.keepMonths) := by
    rcases htags1 with h | ⟨h, _⟩ <;> rw [h] <;> intro hx
    · exact Or.inl hx
    · rcases List.mem_append.1 hx with hx | hx
      · exact Or.inl hx
      · exact absurd hx (by decide)
  have hY1 : "yearly" ∈ t1.file.tags → "yearly" ∈ c.tags ∨
      (yearKey c.time ∉ s.yearly.map Prod.fst ∧ (s.yearly.length : Int) < r.keepYears) := by
    rcases htags1 with h | ⟨h, _⟩ <;> rw [h] <;> intro hx
    · exact Or.inl hx
    · rcases List.mem_append.1 hx with hx | hx
      · exact Or.inl hx
      · exact absurd hx (by decide)
  have hD2 : "daily" ∈ t2.file.tags → "daily" ∈ c.tags ∨
      (dateKey c.time ∉ s.daily.map Prod.fst ∧ (s.daily.length : Int) < r.keepDays) := by
    rcases htags2 with h | ⟨h, _⟩ <;> rw [h] <;> intro hx
    · exact hD1 hx
    · rcases List.mem_append.1 hx with hx | hx
      · exact hD1 hx
      · exact absurd hx (by decide)
  have hW2 : "weekly" ∈ t2.file.tags → "weekly" ∈ c.tags ∨
      (weekKey c.time ∉ s.weekly.map Prod.fst ∧ (s.weekly.length : Int) < r.keepWeeks) := by
    rcases htags2 with h | ⟨h, hw⟩ <;> rw [h] <;> intro hx
    · exact hW1 hx
    · exact Or.inr hw
  have hM2 : "monthly" ∈ t2.file.tags → "monthly" ∈ c.tags ∨
      (monthKey c.time ∉ s.monthly.map Prod.fst ∧ (s.monthly.length : Int) < r.keepMonths) := by
    rcases htags2 with h | ⟨h, _⟩ <;> rw [h] <;> intro hx
    · exact hM1 hx
    · rcases List.mem_append.1 hx with hx | hx
      · exact hM1 hx
      · exact absurd hx (by decide)
  have hY2 : "yearly" ∈ t2.file.tags → "yearly" ∈ c.tags ∨
      (yearKey c.time ∉ s.yearly.map Prod.fst ∧ (s.yearly.length : Int) < r.keepYears) := by
    rcases htags2 with h | ⟨h, _⟩ <;> rw [h] <;> intro hx
    · exact hY1 hx
    · rcases List.mem_append.1 hx with hx | hx
      · exact hY1 hx
      · exact absurd hx (by decide)
  have hD3 : "daily" ∈ t3.file.tags → "daily" ∈ c.tags ∨
      (dateKey c.time ∉ s.daily.map Prod.fst ∧ (s.daily.length : Int) < r.keepDays) := by
    rcases htags3 with h | ⟨h, _⟩ <;> rw [h] <;> intro hx
    · exact hD2 hx
    · rcases List.mem_append.1 hx with hx | hx
      · exact hD2 hx
      · exact absurd hx (by decide)
  have hW3 : "weekly" ∈ t3.file.tags → "weekly" ∈ c.tags ∨
      (weekKey c.time ∉ s.weekly.map Prod.fst ∧ (s.weekly.length : Int) < r.keepWeeks) := by
    rcases htags3 with h | ⟨h, _⟩ <;> rw [h] <;> intro hx
    · exact hW2 hx
    · rcases List.mem_append.1 hx with hx | hx
      · exact hW2 hx
      · exact absurd hx (by decide)
  have hM3 : "monthly" ∈ t3.file.tags → "monthly" ∈ c.tags ∨
      (monthKey c.time ∉ s.monthly.map Prod.fst ∧ (s.monthly.length : Int) < r.keepMonths) := by
    rcases htags3 with h | ⟨h, hm⟩ <;> rw [h] <;> intro hx
    · exact hM2 hx
    · exact Or.inr hm
  have hY3 : "yearly" ∈ t3.file.tags → "yearly" ∈ c.tags ∨
      (yearKey c.time ∉ s.yearly.map Prod.fst ∧ (s.yearly.length : Int) < r.keepYears) := by
    rcases htags3 with h | ⟨h, _⟩ <;> rw [h] <;> intro hx
    · exact hY2 hx
    · rcases List.mem_append.1 hx with hx | hx
      · exact hY2 hx
      · exact absurd hx (by decide)
  have hD4 : "daily" ∈ t4.file.tags → "daily" ∈ c.tags ∨
      (dateKey c.time ∉ s.daily.map Prod.fst ∧ (s.daily.length : Int) < r.keepDays) := by
    rcases htags4 with h | ⟨h, _⟩ <;> rw [h] <;> intro hx
    · exact hD3 hx
    · rcases List.mem_append.1 hx with hx | hx
      · exact hD3 hx
      · exact absurd hx (by decide)
  have hW4 : "weekly" ∈ t4.file.tags → "weekly" ∈ c.tags ∨
      (weekKey c.time ∉ s.weekly.map Prod.fst ∧ (s.weekly.length : Int) < r.keepWeeks) := by
    rcases htags4 with h | ⟨h, _⟩ <;> rw [h] <;> intro hx
    · exact hW3 hx
    · rcases List.mem_append.1 hx with hx | hx
      · exact hW3 hx
      · exact absurd hx (by decide)
  have hM4 : "monthly" ∈ t4.file.tags → "monthly" ∈ c.tags ∨
      (monthKey c.time ∉ s.monthly.map Prod.fst ∧ (s.monthly.length : Int) < r.keepMonths) := by
    rcases htags4 with h | ⟨h, _⟩ <;> rw [h] <;> intro hx
    · exact hM3 hx
    · rcases List.mem_append.1 hx with hx | hx
      · exact hM3 hx
      · exact absurd hx (by decide)
  have hY4 : "yearly" ∈ t4.file.tags → "yearly" ∈ c.tags ∨
      (yearKey c.time ∉ s.yearly.map Prod.fst ∧ (s.yearly.length : Int) < r.keepYears) := by
    rcases htags4 with h | ⟨h, hy⟩ <;> rw [h] <;> intro hx
    · exact hY3 hx
    · exact Or.inr hy
  have s1 := tierStep_sel_mem r.keepDays (dateKey c.time) "daily" c s.daily s.selected
  have s2 := tierStep_sel_mem r.keepWeeks (weekKey t1.file.time) "weekly" t1.file s.weekly t1.sel
  have s3 := tierStep_sel_mem r.keepMonths (monthKey t2.file.time) "monthly" t2.file s.monthly t2.sel
  have s4 := tierStep_sel_mem r.keepYears (yearKey t3.file.time) "yearly" t3.file s.yearly t3.sel
  rw [← ht1] at s1
  rw [← ht2] at s2
  rw [← ht3] at s3
  rw [← ht4] at s4
  intro x hx
  rw [hfin] at hx
  rcases s4 x hx with hx | hx
  · rcases s3 x hx with hx | hx
    · rcases s2 x hx with hx | hx
      · rcases s1 x hx with hx | hx
        · exact Or.inl hx
        · subst hx; exact Or.inr ⟨e1, hD1, hW1, hM1, hY1⟩
      · subst hx; exact Or.inr ⟨e2, hD2, hW2, hM2, hY2⟩
    · subst hx; exact Or.inr ⟨e3, hD3, hW3, hM3, hY3⟩
  · subst hx; exact Or.inr ⟨e4, hD4, hW4, hM4, hY4⟩

lemma GenInv_step_mem (r : Rotator) (s : GenState) (c : BackupFile)
    (hc : c ∈ s.selected) (h : GenInv r s) : GenInv r (genStep r s c) := by
  obtain ⟨l1, l2, l3, l4, i1, i2, i3, i4⟩ := h
  refine ⟨genStep_daily_len_le r s c l1, genStep_weekly_len_le r s c l2,
    genStep_monthly_len_le r s c l3, genStep_yearly_len_le r s c l4, ?_, ?_, ?_, ?_⟩
  · intro b hb htag
    rcases genStep_selected_origin r s c b hb with hold | ⟨ht, hD, _, _, _⟩
    · exact genStep_daily_keys_mono r s c (i1 b hold htag)
    · rw [ht]
      rcases hD htag with hmem | ⟨hk, hl⟩
      · exact genStep_daily_keys_mono r s c (i1 c hc hmem)
      · exact genStep_daily_fires r s c hk hl
  · intro b hb htag
    rcases genStep_selected_origin r s c b hb with hold | ⟨ht, _, hW, _, _⟩
    · exact genStep_weekly_keys_mono r s c (i2 b hold htag)
    · rw [ht]
      rcases hW htag with hmem | ⟨hk, hl⟩
      · exact genStep_weekly_keys_mono r s c (i2 c hc hmem)
      · exact genStep_weekly_fires r s c hk hl
  · intro b hb htag
    rcases genStep_selected_origin r s c b hb with hold | ⟨ht, _, _, hM, _⟩
    · exact genStep_monthly_keys_mono r s c (i3 b hold htag)
    · rw [ht]
      rcases hM htag with hmem | ⟨hk, hl⟩
      · exact genStep_monthly_keys_mono r s c (i3 c hc hmem)
      · exact genStep_monthly_fires r s c hk hl
  · intro b hb htag
    rcases genStep_selected_origin r s c b hb with hold | ⟨ht, _, _, _, hY⟩
    · exact genStep_yearly_keys_mono r s c (i4 b hold htag)
    · rw [ht]
      rcases hY htag with hmem | ⟨hk, hl⟩
      · exact genStep_yearly_keys_mono r s c (i4 c hc hmem)
      · exact genStep_yearly_fires r s c hk hl

lemma mem_of_getElem_some {l : List BackupFile} {n : Nat} {a : BackupFile}
    (h : l[n]? = some a) : a ∈ l := by
  obtain ⟨hlt, rfl⟩ := List.getElem?_eq_some.1 h
  exact List.getElem_mem hlt

lemma GenInv_foldl_alias (r : Rotator) (k : Nat) : ∀ (l : List (Nat × BackupFile)) (s : GenState),
    (∀ p ∈ l, p.2.tags = []) → GenInv r s → GenInv r (l.foldl (genStepAlias r k) s)
  | [], _, _, h => h
  | p :: l, s, hl, h => by
    apply GenInv_foldl_alias r k l _ (fun q hq => hl q (List.mem_cons_of_mem _ hq))
    unfold genStepAlias
    rcases hg : s.selected[k + p.1]? with _ | b
    · exact GenInv_step r s p.2 (hl p (List.mem_cons_self _ _)) h
    · exact GenInv_step_mem r s b (mem_of_getElem_some hg) h

lemma rotateSelectAlias_some (r : Rotator) (found sel : List BackupFile)
    (hsel : rotateSelectAlias r found = some sel) :
    ¬(r.keep < 0 ∨ (found.length : Int) < r.keep) ∧
    sel = (((found.drop r.keep.toNat).enum.foldl (genStepAlias r r.keep.toNat)
      ⟨[], [], [], [],
        (found.take r.keep.toNat).map (fun b => { b with tags := b.tags ++ ["keep"] })⟩).selected) := by
  unfold rotateSelectAlias at hsel
  by_cases hcond : r.keep < 0 ∨ (found.length : Int) < r.keep
  · rw [if_pos hcond] at hsel
    cases hsel
  · rw [if_neg hcond] at hsel
    exact ⟨hcond, (Option.some_inj.1 hsel).symm⟩

lemma rotateSelectAlias_inv (r : Rotator) (found sel : List BackupFile)
    (htags : ∀ b ∈ found, b.tags = [])
    (hsel : rotateSelectAlias r found = some sel) :
    ∃ s : GenState, sel = s.selected ∧ GenInv r s := by
  obtain ⟨-, hs⟩ := rotateSelectAlias_some r found sel hsel
  refine ⟨_, hs, ?_⟩
  apply GenInv_foldl_alias r _ _ _ ?_ ?_
  · intro p hp
    obtain ⟨hlt, he⟩ := List.getElem?_eq_some.1 (List.mem_enum_iff_getElem?.1 hp)
    exact htags p.2 (List.drop_subset _ _ (he ▸ List.getElem_mem hlt))
  · apply GenInv_init
    intro b hb
    obtain ⟨b0, hb0, rfl⟩ := List.mem_map.1 hb
    have h0 : b0.tags = [] := htags b0 (List.take_subset _ _ hb0)
    refine ⟨?_, ?_, ?_, ?_⟩ <;> simp [h0]

/-- C7.  For every scanned file list and policy with non-negative quotas,
and for each tier, the number of distinct bucket keys represented in the
selection by that tier's tag never exceeds the tier's configured quota.
Proved over the aliased selection model: each tier branch inserts into its
bucket map only below quota, and every tier-tagged selected entry — whether
produced from a pristine tail file or from a clobbered, already-selected
entry re-read through the shared backing array — has its bucket key
registered in the tier's map. -/
theorem tier_bucket_counts_le_quota (r : Rotator) (found sel : List BackupFile)
    (htags : ∀ b ∈ found, b.tags = [])
    (hsel : rotateSelectAlias r found = some sel)
    (hd : 0 ≤ r.keepDays) (hw : 0 ≤ r.keepWeeks)
    (hmo : 0 ≤ r.keepMonths) (hy : 0 ≤ r.keepYears) :
    (tierKeyCount "daily" dateKey sel : Int) ≤ r.keepDays ∧
    (tierKeyCount "weekly" weekKey sel : Int) ≤ r.keepWeeks ∧
    (tierKeyCount "monthly" monthKey sel : Int) ≤ r.keepMonths ∧
    (tierKeyCount "yearly" yearKey sel : Int) ≤ r.keepYears := by
  obtain ⟨s, hs, l1, l2, l3, l4, i1, i2, i3, i4⟩ := rotateSelectAlias_inv r found sel htags hsel
  have c1 := tierKeyCount_le "daily" dateKey _ _ i1
  have c2 := tierKeyCount_le "weekly" weekKey _ _ i2
  have c3 := tierKeyCount_le "monthly" monthKey _ _ i3
  have c4 := tierKeyCount_le "yearly" yearKey _ _ i4
  rw [hs]
  refine ⟨?_, ?_, ?_, ?_⟩ <;> omega

/-- Witness for C7 at the three-file input on which the backing-array
aliasing actually corrupts the scan. -/
theorem tier_bucket_counts_le_quota_witness :
    (tierKeyCount "daily" dateKey
      ((rotateSelectAlias rClobber [fNew, fMid, fOld]).getD []) : Int) ≤ rClobber.keepDays ∧
    (tierKeyCount "weekly" weekKey
      ((rotateSelectAlias rClobber [fNew, fMid, fOld]).getD []) : Int) ≤ rClobber.keepWeeks ∧
    (tierKeyCount "monthly" monthKey
      ((rotateSelectAlias rClobber [fNew, fMid, fOld]).getD []) : Int) ≤ rClobber.keepMonths ∧
    (tierKeyCount "yearly" yearKey
      ((rotateSelectAlias rClobber [fNew, fMid, fOld]).getD []) : Int) ≤ rClobber.keepYears :=
  tier_bucket_counts_le_quota rClobber [fNew, fMid, fOld] _ (by decide) rfl
    (by decide) (by decide) (by decide) (by decide)

/-- C8.  The claim fails on the program: with `keep = 0`, `keepDays = 2`,
`keepWeeks = 1` and the newest-first files 2024-06-12T10, 2024-06-11T12 and
2024-06-11T09, the second generational append writes the already-selected
newest file over the 2024-06-11T12 slot of the shared backing array before
the range loop reads it, so that file is never classified, and the *older*
same-day file 2024-06-11T09 receives the `daily` tag: the day bucket's
representative is not its most recent member.  The alias-free selection in
the final conjunct shows the clamped/repaired scan would instead tag the
newer 2024-06-11T12 file, as the claim demands. -/
theorem daily_representative_clobbered :
    rotateSelectAlias rClobber [fNew, fMid, fOld] =
      some [{ fNew with tags := ["daily"] }, { fNew with tags := ["daily", "weekly"] },
        { fOld with tags := ["daily"] }] ∧
    dateKey fOld.time = dateKey fMid.time ∧
    toSeconds fOld.time < toSeconds fMid.time ∧
    rotateSelect rClobber [fNew, fMid, fOld] =
      some [{ fNew with tags := ["daily"] }, { fNew with tags := ["daily", "weekly"] },
        { fMid with tags := ["daily"] }] := by decide
